import Mathlib

/-!
# Connection pool of `tidb_connection_pool.cpp`

Shallow embedding of the class `ConnectionPool` (constructor, destructor,
`getConnection`, `releaseConnection`, `createConnection`) and proofs about it.

* A `std::shared_ptr<sql::Connection>` is modelled by the identity of the
  session object it points to (`Connection`).
* `std::vector` is modelled by `List`, the back of the vector being the last
  element of the list.
* The external MySQL driver is a parameter (`Driver`): a state transformer whose
  `connect` either yields a connection or throws.
* `getConnection` and `releaseConnection` run under `mutex_`, so each is one
  atomic transition of the pool; a `condition_.wait` whose predicate is false is
  the outcome `GetResult.blocked`.
* Calls the pool makes on its collaborators are recorded in a log of `Effect`s.
-/

namespace TidbPool

/-- Identity of the session object behind a `std::shared_ptr<sql::Connection>`. -/
abbrev Connection := Nat

/-- Calls made by the pool on the driver and on connections. -/
inductive Effect where
  | connect (url user password : String)
  | close (conn : Connection)
  deriving DecidableEq, Repr

/-- The external driver: `driver->connect(url, user, password)` either returns a
connection or throws, and may change the driver state either way. -/
structure Driver (σ ε : Type) where
  connect : String → String → String → σ → Except ε Connection × σ

namespace StdVector

/-- Model of `std::vector::empty`. -/
def empty {α : Type} (v : List α) : Bool := v.isEmpty

/-- Model of `std::vector::back`: undefined (`none`) on an empty vector. -/
def back {α : Type} (v : List α) : Option α := v.getLast?

/-- Model of `std::vector::pop_back`: undefined (`none`) on an empty vector. -/
def pop_back {α : Type} (v : List α) : Option (List α) :=
  if v.isEmpty then none else some v.dropLast

/-- Model of `std::vector::push_back`. -/
def push_back {α : Type} (v : List α) (x : α) : List α := v ++ [x]

end StdVector

/-- Data members of `class ConnectionPool` (lines 60-64); the mutex and the
condition variable are represented by the atomicity of the operations. -/
structure ConnectionPool where
  url_ : String
  user_ : String
  password_ : String
  poolSize : Int
  connections_ : List Connection
  deriving DecidableEq, Repr

/-- Outcome of running the constructor. When the constructor body throws, the
destructor body does not run; the member `connections_` is destroyed, which
drops the handles it holds (`dropped`). -/
inductive CtorResult (σ ε : Type) where
  | constructed (pool : ConnectionPool) (s : σ) (log : List Effect)
  | threw (e : ε) (s : σ) (log : List Effect) (dropped : List Connection)

/-- `ConnectionPool::createConnection` (lines 53-58). -/
def createConnection {σ ε : Type} (d : Driver σ ε) (self : ConnectionPool) (s : σ) :
    Except ε Connection × σ :=
  d.connect self.url_ self.user_ self.password_ s

/-- The loop `for(int i=0;i<poolSize;++i)` of the constructor (lines 23-26). -/
def ctorLoop {σ ε : Type} (d : Driver σ ε) (self : ConnectionPool) (i : Int) (s : σ)
    (log : List Effect) : CtorResult σ ε :=
  if _h : i < self.poolSize then
    match createConnection d self s with
    | (Except.ok conn, s1) =>
      ctorLoop d { self with connections_ := StdVector.push_back self.connections_ conn }
        (i + 1) s1 (log ++ [Effect.connect self.url_ self.user_ self.password_])
    | (Except.error e, s1) =>
      CtorResult.threw e s1 (log ++ [Effect.connect self.url_ self.user_ self.password_])
        self.connections_
  else
    CtorResult.constructed self s log
termination_by (self.poolSize - i).toNat
decreasing_by
  show (self.poolSize - (i + 1)).toNat < (self.poolSize - i).toNat
  omega

/-- `ConnectionPool::ConnectionPool` (lines 16-27): member initialisation
followed by the creation loop. -/
def ConnectionPool.ctor {σ ε : Type} (d : Driver σ ε) (url user password : String)
    (poolSize : Int) (s : σ) : CtorResult σ ε :=
  ctorLoop d
    { url_ := url, user_ := user, password_ := password, poolSize := poolSize,
      connections_ := [] } 0 s []

/-- `ConnectionPool::~ConnectionPool` (lines 29-33): the calls it makes, in order. -/
def ConnectionPool.dtor (self : ConnectionPool) : List Effect :=
  self.connections_.map Effect.close

/-- Outcome of one `getConnection` call as an atomic transition. -/
inductive GetResult where
  | blocked
  | undefinedBehaviour
  | returned (conn : Connection) (pool : ConnectionPool)
  deriving DecidableEq, Repr

/-- `ConnectionPool::getConnection` (lines 35-43). When the wait predicate
`!connections_.empty()` is false the caller stays suspended (`blocked`). -/
def ConnectionPool.getConnection (self : ConnectionPool) : GetResult :=
  if StdVector.empty self.connections_ then GetResult.blocked
  else
    match StdVector.back self.connections_, StdVector.pop_back self.connections_ with
    | some conn, some rest => GetResult.returned conn { self with connections_ := rest }
    | _, _ => GetResult.undefinedBehaviour

/-- `ConnectionPool::releaseConnection` (lines 45-49). -/
def ConnectionPool.releaseConnection (self : ConnectionPool) (conn : Connection) :
    ConnectionPool :=
  { self with connections_ := StdVector.push_back self.connections_ conn }

/-- A pool together with the connections its callers currently hold: those
returned by `getConnection` and not released since. -/
structure World where
  pool : ConnectionPool
  held : List Connection
  deriving DecidableEq, Repr

/-- Calls made by the callers of the pool. -/
inductive Action where
  | acquire
  | release (conn : Connection)
  deriving DecidableEq, Repr

/-- State right after construction: nothing is checked out. -/
def World.init (p : ConnectionPool) : World := { pool := p, held := [] }

/-- One caller step. `acquire` is a `getConnection` that completes; `release conn`
is a `releaseConnection` of a connection that is currently checked out. -/
def World.step (w : World) : Action → Option World
  | Action.acquire =>
    match w.pool.getConnection with
    | GetResult.returned conn p1 => some { pool := p1, held := conn :: w.held }
    | _ => none
  | Action.release conn =>
    if conn ∈ w.held then
      some { pool := w.pool.releaseConnection conn, held := w.held.erase conn }
    else none

/-- A sequence of caller steps. -/
def World.run (w : World) : List Action → Option World
  | [] => some w
  | a :: rest =>
    match w.step a with
    | some w1 => w1.run rest
    | none => none

/-- Number of idle connections. -/
def World.idleCount (w : World) : Nat := w.pool.connections_.length

/-- Number of checked-out connections. -/
def World.checkedOutCount (w : World) : Nat := w.held.length

/-- Connections produced by `n` consecutive successful `connect` calls starting
in driver state `s`, with the driver state reached; `none` if one of them throws. -/
def connectN {σ ε : Type} (d : Driver σ ε) (url user password : String) :
    Nat → σ → Option (List Connection × σ)
  | 0, s => some ([], s)
  | n + 1, s =>
    match d.connect url user password s with
    | (Except.ok conn, s1) =>
      match connectN d url user password n s1 with
      | some (cs, s2) => some (conn :: cs, s2)
      | none => none
    | (Except.error _, _) => none

/-- A pool state with the endpoint and credentials used by `main` (lines 70-72). -/
def mainPool (poolSize : Int) (conns : List Connection) : ConnectionPool :=
  { url_ := "tcp://127.0.0.1:4000", user_ := "root", password_ := "", poolSize := poolSize,
    connections_ := conns }

/-- Stub driver: hands out the connections `s, s+1, ...` and never throws. -/
def counterDriver : Driver Nat String :=
  { connect := fun _ _ _ s => (Except.ok s, s + 1) }

/-- Stub driver that throws on its `k`-th call (counting from 1) and on no other. -/
def failingDriver (k : Nat) : Driver Nat String :=
  { connect := fun _ _ _ s =>
      if s + 1 = k then (Except.error "connect failed", s + 1) else (Except.ok s, s + 1) }

/-! ## Construction -/

theorem ctorLoop_of_connectN {σ ε : Type} (d : Driver σ ε) :
    ∀ (n : Nat) (self : ConnectionPool) (i : Int) (s : σ) (log : List Effect)
      (cs : List Connection) (s1 : σ),
      (self.poolSize - i).toNat = n →
      connectN d self.url_ self.user_ self.password_ n s = some (cs, s1) →
      ctorLoop d self i s log =
        CtorResult.constructed { self with connections_ := self.connections_ ++ cs } s1
          (log ++ List.replicate n (Effect.connect self.url_ self.user_ self.password_)) := by
  intro n
  induction n with
  | zero =>
    intro self i s log cs s1 hn hc
    have hi : ¬ i < self.poolSize := by omega
    simp only [connectN, Option.some.injEq, Prod.mk.injEq] at hc
    obtain ⟨rfl, rfl⟩ := hc
    rw [ctorLoop]
    simp [hi]
  | succ n ih =>
    intro self i s log cs s1 hn hc
    have hi : i < self.poolSize := by omega
    rw [ctorLoop]
    simp only [hi, dite_true, createConnection]
    simp only [connectN] at hc
    rcases hd : d.connect self.url_ self.user_ self.password_ s with ⟨r, s2⟩
    rw [hd] at hc
    cases r with
    | error e => simp at hc
    | ok conn =>
      simp only at hc
      rcases hrec : connectN d self.url_ self.user_ self.password_ n s2 with _ | ⟨cs2, s3⟩
      · rw [hrec] at hc; simp at hc
      · rw [hrec] at hc
        simp only [Option.some.injEq, Prod.mk.injEq] at hc
        obtain ⟨rfl, rfl⟩ := hc
        have hrec2 := ih
          { self with connections_ := StdVector.push_back self.connections_ conn } (i + 1) s2
          (log ++ [Effect.connect self.url_ self.user_ self.password_]) cs2 s3
          (by show (self.poolSize - (i + 1)).toNat = n; omega) hrec
        simp only at hrec2 ⊢
        rw [hrec2]
        simp [StdVector.push_back, List.replicate_succ]

theorem ctorLoop_of_failure {σ ε : Type} (d : Driver σ ε) :
    ∀ (m : Nat) (self : ConnectionPool) (i : Int) (s : σ) (log : List Effect)
      (cs : List Connection) (s1 s2 : σ) (e : ε),
      (m : Int) < self.poolSize - i →
      connectN d self.url_ self.user_ self.password_ m s = some (cs, s1) →
      d.connect self.url_ self.user_ self.password_ s1 = (Except.error e, s2) →
      ctorLoop d self i s log =
        CtorResult.threw e s2
          (log ++ List.replicate (m + 1) (Effect.connect self.url_ self.user_ self.password_))
          (self.connections_ ++ cs) := by
  intro m
  induction m with
  | zero =>
    intro self i s log cs s1 s2 e hm hc he
    have hi : i < self.poolSize := by omega
    simp only [connectN, Option.some.injEq, Prod.mk.injEq] at hc
    obtain ⟨rfl, rfl⟩ := hc
    rw [ctorLoop]
    simp [hi, createConnection, he]
  | succ m ih =>
    intro self i s log cs s1 s2 e hm hc he
    have hi : i < self.poolSize := by omega
    rw [ctorLoop]
    simp only [hi, dite_true, createConnection]
    simp only [connectN] at hc
    rcases hd : d.connect self.url_ self.user_ self.password_ s with ⟨r, s3⟩
    rw [hd] at hc
    cases r with
    | error e1 => simp at hc
    | ok conn =>
      simp only at hc
      rcases hrec : connectN d self.url_ self.user_ self.password_ m s3 with _ | ⟨cs2, s4⟩
      · rw [hrec] at hc; simp at hc
      · rw [hrec] at hc
        simp only [Option.some.injEq, Prod.mk.injEq] at hc
        obtain ⟨rfl, rfl⟩ := hc
        have hrec2 := ih
          { self with connections_ := StdVector.push_back self.connections_ conn } (i + 1) s3
          (log ++ [Effect.connect self.url_ self.user_ self.password_]) cs2 s4 s2 e
          (by show (m : Int) < self.poolSize - (i + 1); push_cast at hm; omega) hrec he
        simp only at hrec2 ⊢
        rw [hrec2]
        simp [StdVector.push_back, List.replicate_succ]

theorem connectN_length {σ ε : Type} (d : Driver σ ε) (url user password : String) :
    ∀ (n : Nat) (s s1 : σ) (cs : List Connection),
      connectN d url user password n s = some (cs, s1) → cs.length = n := by
  intro n
  induction n with
  | zero =>
    intro s s1 cs h
    simp only [connectN, Option.some.injEq, Prod.mk.injEq] at h
    simp [← h.1]
  | succ n ih =>
    intro s s1 cs h
    simp only [connectN] at h
    rcases hd : d.connect url user password s with ⟨r, s2⟩
    rw [hd] at h
    cases r with
    | error e => simp at h
    | ok conn =>
      simp only at h
      rcases hrec : connectN d url user password n s2 with _ | ⟨cs2, s3⟩
      · rw [hrec] at h; simp at h
      · rw [hrec] at h
        simp only [Option.some.injEq, Prod.mk.injEq] at h
        obtain ⟨rfl, rfl⟩ := h
        simp [ih s2 s3 cs2 hrec]

/-! ## Acquire and release -/

theorem getConnection_nil (p : ConnectionPool) (h : p.connections_ = []) :
    p.getConnection = GetResult.blocked := by
  simp [ConnectionPool.getConnection, StdVector.empty, h]

theorem getConnection_append (p : ConnectionPool) (xs : List Connection) (c : Connection)
    (h : p.connections_ = xs ++ [c]) :
    p.getConnection = GetResult.returned c { p with connections_ := xs } := by
  simp [ConnectionPool.getConnection, StdVector.empty, StdVector.back, StdVector.pop_back, h]

theorem getConnection_cases (p : ConnectionPool) :
    (p.connections_ = [] ∧ p.getConnection = GetResult.blocked) ∨
    (∃ xs c, p.connections_ = xs ++ [c] ∧
      p.getConnection = GetResult.returned c { p with connections_ := xs }) := by
  rcases List.eq_nil_or_concat p.connections_ with h | ⟨xs, c, h⟩
  · exact Or.inl ⟨h, getConnection_nil p h⟩
  · rw [List.concat_eq_append] at h
    exact Or.inr ⟨xs, c, h, getConnection_append p xs c h⟩

theorem getConnection_returned (p p1 : ConnectionPool) (c : Connection)
    (h : p.getConnection = GetResult.returned c p1) :
    p.connections_ = p1.connections_ ++ [c] ∧
      p1 = { p with connections_ := p1.connections_ } := by
  rcases getConnection_cases p with ⟨_, hb⟩ | ⟨xs, c1, hx, hr⟩
  · rw [hb] at h; cases h
  · rw [hr] at h
    cases h
    exact ⟨hx, rfl⟩

theorem step_acquire (w w1 : World) (h : w.step Action.acquire = some w1) :
    ∃ c, w.pool.getConnection = GetResult.returned c w1.pool ∧ w1.held = c :: w.held := by
  simp only [World.step] at h
  rcases hg : w.pool.getConnection with _ | _ | ⟨conn, p1⟩
  · rw [hg] at h; cases h
  · rw [hg] at h; cases h
  · rw [hg] at h
    simp only [Option.some.injEq] at h
    subst h
    exact ⟨conn, rfl, rfl⟩

theorem step_release (w w1 : World) (c : Connection) (h : w.step (Action.release c) = some w1) :
    c ∈ w.held ∧ w1.pool = w.pool.releaseConnection c ∧ w1.held = w.held.erase c := by
  simp only [World.step] at h
  by_cases hm : c ∈ w.held
  · rw [if_pos hm] at h
    simp only [Option.some.injEq] at h
    subst h
    exact ⟨hm, rfl, rfl⟩
  · rw [if_neg hm] at h; cases h

theorem step_preserves (w w1 : World) (a : Action) (h : w.step a = some w1) :
    (w1.pool.connections_ ++ w1.held).Perm (w.pool.connections_ ++ w.held) ∧
      w1.pool.poolSize = w.pool.poolSize := by
  cases a with
  | acquire =>
    obtain ⟨c, hg, hh⟩ := step_acquire w w1 h
    obtain ⟨hc, hp⟩ := getConnection_returned _ _ _ hg
    refine ⟨?_, by rw [hp]⟩
    rw [hc, hh, List.append_assoc]
    exact List.Perm.refl _
  | release c =>
    obtain ⟨hm, hp, hh⟩ := step_release w w1 c h
    refine ⟨?_, by rw [hp]; rfl⟩
    rw [hp, hh]
    show ((w.pool.connections_ ++ [c]) ++ w.held.erase c).Perm _
    rw [List.append_assoc]
    exact List.Perm.append_left _ (List.perm_cons_erase hm).symm

theorem run_preserves (acts : List Action) :
    ∀ (w w1 : World), w.run acts = some w1 →
      (w1.pool.connections_ ++ w1.held).Perm (w.pool.connections_ ++ w.held) ∧
        w1.pool.poolSize = w.pool.poolSize := by
  induction acts with
  | nil =>
    intro w w1 h
    simp only [World.run, Option.some.injEq] at h
    subst h
    exact ⟨List.Perm.refl _, rfl⟩
  | cons a rest ih =>
    intro w w1 h
    simp only [World.run] at h
    rcases hs : w.step a with _ | w2
    · rw [hs] at h; cases h
    · rw [hs] at h
      obtain ⟨h1, h2⟩ := step_preserves w w2 a hs
      obtain ⟨h3, h4⟩ := ih w2 w1 h
      exact ⟨h3.trans h1, h4.trans h2⟩

theorem run_append (xs ys : List Action) :
    ∀ (w : World), w.run (xs ++ ys) =
      match w.run xs with
      | some w1 => w1.run ys
      | none => none := by
  induction xs with
  | nil => intro w; simp [World.run]
  | cons a rest ih =>
    intro w
    simp only [List.cons_append, World.run]
    rcases w.step a with _ | w2
    · rfl
    · exact ih w2

theorem run_keeps_held (mid : List Action) (c : Connection) (hmid : Action.release c ∉ mid) :
    ∀ (w w1 : World), w.run mid = some w1 → c ∈ w.held → c ∈ w1.held := by
  induction mid with
  | nil =>
    intro w w1 h hc
    simp only [World.run, Option.some.injEq] at h
    subst h
    exact hc
  | cons a rest ih =>
    intro w w1 h hc
    simp only [World.run] at h
    rcases hs : w.step a with _ | w2
    · rw [hs] at h; cases h
    · rw [hs] at h
      have hrest : Action.release c ∉ rest := fun hx => hmid (List.mem_cons_of_mem _ hx)
      refine ih hrest w2 w1 h ?_
      cases a with
      | acquire =>
        obtain ⟨c1, _, hh⟩ := step_acquire w w2 hs
        rw [hh]
        exact List.mem_cons_of_mem _ hc
      | release c1 =>
        obtain ⟨_, _, hh⟩ := step_release w w2 c1 hs
        rw [hh]
        have hne : c ≠ c1 := by
          intro he
          subst he
          exact hmid (List.mem_cons_self _ _)
        exact (List.mem_erase_of_ne hne).mpr hc

theorem ctor_constructed {σ ε : Type} (d : Driver σ ε) (url user password : String)
    (poolSize : Int) (s s1 : σ) (cs : List Connection)
    (h : connectN d url user password poolSize.toNat s = some (cs, s1)) :
    ConnectionPool.ctor d url user password poolSize s =
      CtorResult.constructed
        { url_ := url, user_ := user, password_ := password, poolSize := poolSize,
          connections_ := cs } s1
        (List.replicate poolSize.toNat (Effect.connect url user password)) := by
  unfold ConnectionPool.ctor
  rw [ctorLoop_of_connectN d poolSize.toNat _ 0 s [] cs s1 (by simp) h]
  simp

theorem ctorLoop_constructed_inv {σ ε : Type} (d : Driver σ ε) :
    ∀ (n : Nat) (self : ConnectionPool) (i : Int) (s : σ) (log : List Effect)
      (p : ConnectionPool) (s1 : σ) (log1 : List Effect),
      (self.poolSize - i).toNat = n →
      ctorLoop d self i s log = CtorResult.constructed p s1 log1 →
      p.poolSize = self.poolSize ∧ p.connections_.length = self.connections_.length + n := by
  intro n
  induction n with
  | zero =>
    intro self i s log p s1 log1 hn h
    have hi : ¬ i < self.poolSize := by omega
    rw [ctorLoop] at h
    simp only [hi, dite_false, CtorResult.constructed.injEq] at h
    obtain ⟨rfl, _, _⟩ := h
    exact ⟨rfl, rfl⟩
  | succ n ih =>
    intro self i s log p s1 log1 hn h
    have hi : i < self.poolSize := by omega
    rw [ctorLoop] at h
    simp only [hi, dite_true, createConnection] at h
    rcases hd : d.connect self.url_ self.user_ self.password_ s with ⟨r, s2⟩
    rw [hd] at h
    cases r with
    | error e => simp at h
    | ok conn =>
      simp only at h
      obtain ⟨h1, h2⟩ := ih _ _ _ _ _ _ _
        (by show (self.poolSize - (i + 1)).toNat = n; omega) h
      refine ⟨h1, ?_⟩
      rw [h2]
      simp only [StdVector.push_back, List.length_append, List.length_singleton]
      omega

theorem ctor_constructed_inv {σ ε : Type} (d : Driver σ ε) (url user password : String)
    (poolSize : Int) (s s1 : σ) (p0 : ConnectionPool) (log : List Effect)
    (h : ConnectionPool.ctor d url user password poolSize s = CtorResult.constructed p0 s1 log) :
    p0.poolSize = poolSize ∧ p0.connections_.length = poolSize.toNat := by
  unfold ConnectionPool.ctor at h
  obtain ⟨h1, h2⟩ := ctorLoop_constructed_inv d poolSize.toNat _ 0 s [] p0 s1 log (by simp) h
  exact ⟨h1, by simpa using h2⟩

theorem run_nodup (p0 : ConnectionPool) (hd : p0.connections_.Nodup) (acts : List Action)
    (w : World) (hrun : (World.init p0).run acts = some w) :
    (w.pool.connections_ ++ w.held).Nodup := by
  obtain ⟨hperm, _⟩ := run_preserves acts _ _ hrun
  rw [hperm.nodup_iff]
  simpa [World.init] using hd

/-! ## Claims -/

/-- C1: for every poolSize > 0 and every factory whose poolSize calls all succeed,
the constructor returns a pool (it does not throw), it makes exactly poolSize
calls to the factory and no other call, the idle store is exactly the list of
connections those calls returned, poolSize in number, and nothing is checked out. -/
theorem C1_ctor_fills_idle_store {σ ε : Type} (d : Driver σ ε) (url user password : String)
    (poolSize : Int) (s s1 : σ) (cs : List Connection)
    (hpos : 0 < poolSize)
    (hok : connectN d url user password poolSize.toNat s = some (cs, s1)) :
    ∃ p log,
      ConnectionPool.ctor d url user password poolSize s = CtorResult.constructed p s1 log ∧
      log = List.replicate poolSize.toNat (Effect.connect url user password) ∧
      (log.length : Int) = poolSize ∧
      p.connections_ = cs ∧
      p.poolSize = poolSize ∧
      ((World.init p).idleCount : Int) = poolSize ∧
      (World.init p).checkedOutCount = 0 := by
  have hlen := connectN_length d url user password _ _ _ _ hok
  refine ⟨_, _, ctor_constructed d url user password poolSize s s1 cs hok, rfl, ?_, rfl, rfl,
    ?_, rfl⟩
  · rw [List.length_replicate]; omega
  · show ((cs.length : Nat) : Int) = poolSize
    rw [hlen]; omega

/-- Witness of C1: a pool of size 3 over the stub driver. -/
theorem C1_ctor_fills_idle_store_witness :
    ∃ p log,
      ConnectionPool.ctor counterDriver "tcp://127.0.0.1:4000" "root" "" 3 0 =
        CtorResult.constructed p 3 log ∧
      log = List.replicate (3 : Int).toNat (Effect.connect "tcp://127.0.0.1:4000" "root" "") ∧
      (log.length : Int) = 3 ∧
      p.connections_ = [0, 1, 2] ∧
      p.poolSize = 3 ∧
      ((World.init p).idleCount : Int) = 3 ∧
      (World.init p).checkedOutCount = 0 :=
  C1_ctor_fills_idle_store counterDriver "tcp://127.0.0.1:4000" "root" "" 3 0 3 [0, 1, 2]
    (by decide) rfl

/-- C2: in every state reachable from a freshly constructed pool (poolSize not
negative, which covers the precondition poolSize > 0) by getConnection steps and
releaseConnection steps of a connection currently checked out, the number of idle
connections plus the number of checked-out connections equals poolSize. -/
theorem C2_idle_plus_checked_out_eq_poolSize {σ ε : Type} (d : Driver σ ε)
    (url user password : String) (poolSize : Int) (s s1 : σ) (p0 : ConnectionPool)
    (log : List Effect) (acts : List Action) (w : World)
    (hsize : 0 ≤ poolSize)
    (hctor : ConnectionPool.ctor d url user password poolSize s =
      CtorResult.constructed p0 s1 log)
    (hrun : (World.init p0).run acts = some w) :
    (w.idleCount : Int) + (w.checkedOutCount : Int) = poolSize ∧ w.pool.poolSize = poolSize := by
  obtain ⟨hps, hlen⟩ := ctor_constructed_inv d url user password poolSize s s1 p0 log hctor
  obtain ⟨hperm, hsame⟩ := run_preserves acts _ _ hrun
  have hl := hperm.length_eq
  simp only [World.init, List.length_append, List.length_nil, Nat.add_zero] at hl hsame
  refine ⟨?_, by rw [hsame, hps]⟩
  simp only [World.idleCount, World.checkedOutCount]
  omega

/-- Witness of C2: a pool of size 3, two acquires, then a release of connection 2. -/
theorem C2_idle_plus_checked_out_eq_poolSize_witness :
    (({ pool := mainPool 3 [0, 2], held := [1] } : World).idleCount : Int) +
        (({ pool := mainPool 3 [0, 2], held := [1] } : World).checkedOutCount : Int) = 3 ∧
      ({ pool := mainPool 3 [0, 2], held := [1] } : World).pool.poolSize = 3 :=
  C2_idle_plus_checked_out_eq_poolSize counterDriver "tcp://127.0.0.1:4000" "root" "" 3 0 3
    (mainPool 3 [0, 1, 2])
    (List.replicate 3 (Effect.connect "tcp://127.0.0.1:4000" "root" ""))
    [Action.acquire, Action.acquire, Action.release 2]
    { pool := mainPool 3 [0, 2], held := [1] }
    (by decide)
    (ctor_constructed counterDriver "tcp://127.0.0.1:4000" "root" "" 3 0 3 [0, 1, 2] rfl)
    (by decide)

/-- C3: for every pool whose store holds pairwise distinct connections and every
sequence of getConnection and valid releaseConnection steps, no connection is
checked out twice, a checked-out connection is absent from the idle store and
cannot be returned by getConnection; and once a getConnection has returned a
connection, no getConnection after any further steps returns it again unless one
of those steps released it. -/
theorem C3_no_connection_held_twice (p0 : ConnectionPool)
    (hdistinct : p0.connections_.Nodup) :
    (∀ (acts : List Action) (w : World), (World.init p0).run acts = some w →
        w.held.Nodup ∧ (∀ c ∈ w.held, c ∉ w.pool.connections_) ∧
        (∀ c ∈ w.held, ∀ p1, w.pool.getConnection ≠ GetResult.returned c p1)) ∧
    (∀ (pre mid : List Action) (w0 w2 : World) (c : Connection) (p1 : ConnectionPool),
        (World.init p0).run pre = some w0 →
        w0.pool.getConnection = GetResult.returned c p1 →
        ({ pool := p1, held := c :: w0.held } : World).run mid = some w2 →
        Action.release c ∉ mid →
        ∀ p2, w2.pool.getConnection ≠ GetResult.returned c p2) := by
  have key : ∀ (acts : List Action) (w : World), (World.init p0).run acts = some w →
      w.held.Nodup ∧ (∀ c ∈ w.held, c ∉ w.pool.connections_) ∧
      (∀ c ∈ w.held, ∀ p1, w.pool.getConnection ≠ GetResult.returned c p1) := by
    intro acts w hrun
    have hnd := run_nodup p0 hdistinct acts w hrun
    rw [List.nodup_append] at hnd
    obtain ⟨_, hheld, hdisj⟩ := hnd
    have habs : ∀ c ∈ w.held, c ∉ w.pool.connections_ := fun c hc hi => hdisj hi hc
    refine ⟨hheld, habs, ?_⟩
    intro c hc p1 hg
    obtain ⟨hconn, _⟩ := getConnection_returned _ _ _ hg
    exact habs c hc (by rw [hconn]; simp)
  refine ⟨key, ?_⟩
  intro pre mid w0 w2 c p1 hpre hget hmid hnorel p2
  have hstep : w0.step Action.acquire = some { pool := p1, held := c :: w0.held } := by
    simp only [World.step, hget]
  have hrun : (World.init p0).run ((pre ++ [Action.acquire]) ++ mid) = some w2 := by
    rw [run_append, run_append, hpre]
    simp only [World.run, hstep]
    exact hmid
  have hc : c ∈ w2.held :=
    run_keeps_held mid c hnorel _ _ hmid (List.mem_cons_self _ _)
  exact (key _ w2 hrun).2.2 c hc p2

/-- Witness of C3: the pool of size 2 holding the connections 0 and 1; after one
acquire, connection 1 is checked out and the next acquire returns connection 0. -/
theorem C3_no_connection_held_twice_witness :
    (mainPool 2 [0, 1]).connections_.Nodup ∧
      (World.init (mainPool 2 [0, 1])).run [Action.acquire] =
        some { pool := mainPool 2 [0], held := [1] } ∧
      ∀ p1, (mainPool 2 [0]).getConnection ≠ GetResult.returned 1 p1 :=
  ⟨by decide, by decide,
    ((C3_no_connection_held_twice (mainPool 2 [0, 1]) (by decide)).1 [Action.acquire]
      { pool := mainPool 2 [0], held := [1] } (by decide)).2.2 1 (by decide)⟩

/-- C4: for every pool state and every connection conn currently checked out,
releaseConnection(conn) is a valid step that appends conn to the idle store: the
idle count grows by exactly one, the checked-out count shrinks by exactly one,
every previously idle connection stays in the store (in its place), and the next
getConnection returns conn. -/
theorem C4_release_returns_connection (w : World) (conn : Connection)
    (hheld : conn ∈ w.held) :
    ∃ w1, w.step (Action.release conn) = some w1 ∧
      w1.pool = w.pool.releaseConnection conn ∧
      w1.idleCount = w.idleCount + 1 ∧
      w1.checkedOutCount + 1 = w.checkedOutCount ∧
      w1.pool.connections_ = w.pool.connections_ ++ [conn] ∧
      (∀ x ∈ w.pool.connections_, x ∈ w1.pool.connections_) ∧
      w1.pool.getConnection = GetResult.returned conn w.pool := by
  refine ⟨{ pool := w.pool.releaseConnection conn, held := w.held.erase conn }, ?_, rfl, ?_, ?_,
    rfl, ?_, ?_⟩
  · simp only [World.step, if_pos hheld]
  · simp [World.idleCount, ConnectionPool.releaseConnection, StdVector.push_back]
  · simp only [World.checkedOutCount, List.length_erase_of_mem hheld]
    have : 0 < w.held.length := List.length_pos_of_mem hheld
    omega
  · intro x hx
    simp [ConnectionPool.releaseConnection, StdVector.push_back, hx]
  · exact getConnection_append _ w.pool.connections_ conn rfl

/-- Witness of C4: releasing connection 1 into the pool of size 2 that holds 0. -/
theorem C4_release_returns_connection_witness :
    ∃ w1, ({ pool := mainPool 2 [0], held := [1] } : World).step (Action.release 1) = some w1 ∧
      w1.pool = (mainPool 2 [0]).releaseConnection 1 ∧
      w1.idleCount = 1 + 1 ∧
      w1.checkedOutCount + 1 = 1 ∧
      w1.pool.connections_ = [0] ++ [1] ∧
      (∀ x ∈ [0], x ∈ w1.pool.connections_) ∧
      w1.pool.getConnection = GetResult.returned 1 (mainPool 2 [0]) :=
  C4_release_returns_connection { pool := mainPool 2 [0], held := [1] } 1 (by decide)

/-- C5, counterexample: the pool of size 1 built over the stub driver holds
connection 0 and has nothing checked out. Releasing the foreign connection 7, or
releasing the idle connection 0 again, is accepted: the store changes and the
idle count becomes 2, above poolSize = 1. -/
theorem C5_release_unchecked_counterexample :
    ConnectionPool.ctor counterDriver "tcp://127.0.0.1:4000" "root" "" 1 0 =
        CtorResult.constructed (mainPool 1 [0]) 1
          [Effect.connect "tcp://127.0.0.1:4000" "root" ""] ∧
      (7 : Connection) ∉ (World.init (mainPool 1 [0])).held ∧
      (0 : Connection) ∉ (World.init (mainPool 1 [0])).held ∧
      (mainPool 1 [0]).releaseConnection 7 = mainPool 1 [0, 7] ∧
      (mainPool 1 [0]).releaseConnection 0 = mainPool 1 [0, 0] ∧
      ((mainPool 1 [0]).releaseConnection 7).connections_ ≠ (mainPool 1 [0]).connections_ ∧
      (mainPool 1 [0]).poolSize <
        (((mainPool 1 [0]).releaseConnection 7).connections_.length : Int) :=
  ⟨ctor_constructed counterDriver "tcp://127.0.0.1:4000" "root" "" 1 0 1 [0] rfl,
    by decide, by decide, by decide, by decide, by decide, by decide⟩

/-- C5, amended: releaseConnection validates nothing and reports nothing. For
every pool state and every connection conn, checked out or not, it appends conn
to the back of the idle store: the idle count grows by one, poolSize is unchanged,
conn is what the next getConnection returns, and a store that held poolSize
connections holds more than poolSize afterwards. -/
theorem C5_release_accepts_any_connection (p : ConnectionPool) (conn : Connection) :
    (p.releaseConnection conn).connections_ = p.connections_ ++ [conn] ∧
      (p.releaseConnection conn).connections_.length = p.connections_.length + 1 ∧
      (p.releaseConnection conn).poolSize = p.poolSize ∧
      (p.releaseConnection conn).getConnection = GetResult.returned conn p ∧
      ((p.connections_.length : Int) = p.poolSize →
        p.poolSize < ((p.releaseConnection conn).connections_.length : Int)) := by
  refine ⟨rfl, ?_, rfl, getConnection_append _ p.connections_ conn rfl, ?_⟩
  · simp [ConnectionPool.releaseConnection, StdVector.push_back]
  · intro h
    simp only [ConnectionPool.releaseConnection, StdVector.push_back, List.length_append,
      List.length_singleton]
    omega

/-- C6, counterexample: poolSize = 3 over a driver that throws on its 2nd call.
Construction throws the driver error itself after two connect calls; no close()
is called on connection 0, the one created first: its handle is only dropped. -/
theorem C6_failed_construction_counterexample :
    ConnectionPool.ctor (failingDriver 2) "tcp://127.0.0.1:4000" "root" "" 3 0 =
        CtorResult.threw "connect failed" 2
          [Effect.connect "tcp://127.0.0.1:4000" "root" "",
            Effect.connect "tcp://127.0.0.1:4000" "root" ""] [0] ∧
      Effect.close 0 ∉
        [Effect.connect "tcp://127.0.0.1:4000" "root" "",
          Effect.connect "tcp://127.0.0.1:4000" "root" ""] :=
  ⟨ctorLoop_of_failure (failingDriver 2) 1 (mainPool 3 []) 0 0 [] [0] 1 2 "connect failed"
      (by decide) rfl rfl,
    by decide⟩

/-- C6, amended: if the factory throws on the k-th creation during construction
(k <= poolSize, the k-1 earlier calls succeeding), construction throws the driver
error unchanged, with no count attached, after exactly k factory calls; the pool
calls close() on none of the k-1 connections already created, whose handles are
dropped with the store. -/
theorem C6_failed_construction_propagates_driver_error {σ ε : Type} (d : Driver σ ε)
    (url user password : String) (poolSize : Int) (k : Nat) (s s1 s2 : σ)
    (cs : List Connection) (e : ε)
    (hk : 0 < k) (hle : (k : Int) ≤ poolSize)
    (hprev : connectN d url user password (k - 1) s = some (cs, s1))
    (hfail : d.connect url user password s1 = (Except.error e, s2)) :
    ∃ log,
      ConnectionPool.ctor d url user password poolSize s = CtorResult.threw e s2 log cs ∧
      log = List.replicate k (Effect.connect url user password) ∧
      cs.length = k - 1 ∧
      ∀ c, Effect.close c ∉ log := by
  have hlen := connectN_length d url user password _ _ _ _ hprev
  have hk1 : k - 1 + 1 = k := by omega
  refine ⟨_, ?_, rfl, hlen, ?_⟩
  · unfold ConnectionPool.ctor
    rw [ctorLoop_of_failure d (k - 1) _ 0 s [] cs s1 s2 e
      (by show ((k - 1 : Nat) : Int) < poolSize - 0; omega) hprev hfail]
    simp [hk1]
  · intro c hc
    have := List.eq_of_mem_replicate hc
    cases this

/-- Witness of C6: poolSize = 3, the driver throwing on its 2nd call. -/
theorem C6_failed_construction_propagates_driver_error_witness :
    ∃ log,
      ConnectionPool.ctor (failingDriver 2) "tcp://127.0.0.1:4000" "root" "" 3 0 =
        CtorResult.threw "connect failed" 2 log [0] ∧
      log = List.replicate 2 (Effect.connect "tcp://127.0.0.1:4000" "root" "") ∧
      [(0 : Connection)].length = 2 - 1 ∧
      ∀ c, Effect.close c ∉ log :=
  C6_failed_construction_propagates_driver_error (failingDriver 2) "tcp://127.0.0.1:4000"
    "root" "" 3 2 0 1 2 [0] "connect failed" (by decide) (by decide) rfl rfl

/-- C7, counterexample: the pool of size 2 built over the stub driver, after one
getConnection (which hands out connection 1). The destructor closes connection 0
only; connection 1, checked out at that moment, is not closed. -/
theorem C7_teardown_counterexample :
    ConnectionPool.ctor counterDriver "tcp://127.0.0.1:4000" "root" "" 2 0 =
        CtorResult.constructed (mainPool 2 [0, 1]) 2
          [Effect.connect "tcp://127.0.0.1:4000" "root" "",
            Effect.connect "tcp://127.0.0.1:4000" "root" ""] ∧
      (World.init (mainPool 2 [0, 1])).run [Action.acquire] =
        some { pool := mainPool 2 [0], held := [1] } ∧
      (mainPool 2 [0]).dtor = [Effect.close 0] ∧
      Effect.close 1 ∉ (mainPool 2 [0]).dtor :=
  ⟨ctor_constructed counterDriver "tcp://127.0.0.1:4000" "root" "" 2 0 2 [0, 1] rfl,
    by decide, by decide, by decide⟩

/-- C7, amended: in every state reachable from a freshly constructed pool by valid
getConnection/releaseConnection steps, the destructor calls close() on exactly the
connections idle at that moment, poolSize minus the number checked out; when the
connections are pairwise distinct, none that is checked out is closed; and when
nothing is checked out, every connection created at construction is closed. -/
theorem C7_teardown_closes_idle_connections {σ ε : Type} (d : Driver σ ε)
    (url user password : String) (poolSize : Int) (s s1 : σ) (p0 : ConnectionPool)
    (log : List Effect) (acts : List Action) (w : World)
    (hsize : 0 ≤ poolSize)
    (hctor : ConnectionPool.ctor d url user password poolSize s =
      CtorResult.constructed p0 s1 log)
    (hrun : (World.init p0).run acts = some w) :
    (∀ e, e ∈ w.pool.dtor ↔ ∃ c ∈ w.pool.connections_, e = Effect.close c) ∧
      (w.pool.dtor.length : Int) = poolSize - (w.checkedOutCount : Int) ∧
      (p0.connections_.Nodup → ∀ c ∈ w.held, Effect.close c ∉ w.pool.dtor) ∧
      (w.held = [] → ∀ c ∈ p0.connections_, Effect.close c ∈ w.pool.dtor) := by
  obtain ⟨_, hlen⟩ := ctor_constructed_inv d url user password poolSize s s1 p0 log hctor
  obtain ⟨hperm, _⟩ := run_preserves acts _ _ hrun
  have hl := hperm.length_eq
  simp only [World.init, List.length_append, List.length_nil, Nat.add_zero] at hl
  have hmem : ∀ c, Effect.close c ∈ w.pool.dtor ↔ c ∈ w.pool.connections_ := by
    intro c
    simp [ConnectionPool.dtor]
  refine ⟨?_, ?_, ?_, ?_⟩
  · intro e
    simp only [ConnectionPool.dtor, List.mem_map]
    constructor
    · rintro ⟨c, hc, rfl⟩; exact ⟨c, hc, rfl⟩
    · rintro ⟨c, hc, rfl⟩; exact ⟨c, hc, rfl⟩
  · simp only [ConnectionPool.dtor, List.length_map, World.checkedOutCount]
    omega
  · intro hnd c hc hclosed
    have hnd2 := run_nodup p0 hnd acts w hrun
    rw [List.nodup_append] at hnd2
    exact hnd2.2.2 ((hmem c).mp hclosed) hc
  · intro hnone c hc
    rw [hmem]
    have : c ∈ w.pool.connections_ ++ w.held := hperm.mem_iff.mpr (by simpa [World.init] using hc)
    simpa [hnone] using this

/-- Witness of C7: the pool of size 2 after one acquire. -/
theorem C7_teardown_closes_idle_connections_witness :
    (∀ e, e ∈ (mainPool 2 [0]).dtor ↔ ∃ c ∈ (mainPool 2 [0]).connections_, e = Effect.close c) ∧
      ((mainPool 2 [0]).dtor.length : Int) = 2 - ((1 : Nat) : Int) ∧
      ((mainPool 2 [0, 1]).connections_.Nodup → ∀ c ∈ [1], Effect.close c ∉ (mainPool 2 [0]).dtor) ∧
      (([1] : List Connection) = [] →
        ∀ c ∈ (mainPool 2 [0, 1]).connections_, Effect.close c ∈ (mainPool 2 [0]).dtor) :=
  C7_teardown_closes_idle_connections counterDriver "tcp://127.0.0.1:4000" "root" "" 2 0 2
    (mainPool 2 [0, 1])
    (List.replicate 2 (Effect.connect "tcp://127.0.0.1:4000" "root" ""))
    [Action.acquire] { pool := mainPool 2 [0], held := [1] }
    (by decide)
    (ctor_constructed counterDriver "tcp://127.0.0.1:4000" "root" "" 2 0 2 [0, 1] rfl)
    (by decide)

/-- C8, counterexample: the pool of size 2 built over the stub driver, after two
getConnection calls. The store is empty and a third getConnection is blocked: it
has no timeout to elapse and returns nothing, an error included. -/
theorem C8_exhausted_acquire_counterexample :
    ConnectionPool.ctor counterDriver "tcp://127.0.0.1:4000" "root" "" 2 0 =
        CtorResult.constructed (mainPool 2 [0, 1]) 2
          [Effect.connect "tcp://127.0.0.1:4000" "root" "",
            Effect.connect "tcp://127.0.0.1:4000" "root" ""] ∧
      (World.init (mainPool 2 [0, 1])).run [Action.acquire, Action.acquire] =
        some { pool := mainPool 2 [], held := [0, 1] } ∧
      (mainPool 2 []).getConnection = GetResult.blocked ∧
      (World.init (mainPool 2 [0, 1])).run [Action.acquire, Action.acquire, Action.acquire] =
        none :=
  ⟨ctor_constructed counterDriver "tcp://127.0.0.1:4000" "root" "" 2 0 2 [0, 1] rfl,
    by decide, by decide, by decide⟩

/-- C8, amended: getConnection takes no timeout. On a pool whose store is empty
it does not return (the caller stays blocked) and the pool state is unchanged.
For a pool of size 2, two getConnection calls succeed, a third is blocked, and
after one of the two held connections is released a retried getConnection
returns that connection at once, leaving the store empty again. -/
theorem C8_exhausted_acquire_blocks {σ ε : Type} (d : Driver σ ε)
    (url user password : String) (s s1 : σ) (a b : Connection)
    (hok : connectN d url user password 2 s = some ([a, b], s1)) :
    (∀ w : World, w.pool.connections_ = [] →
        w.pool.getConnection = GetResult.blocked ∧ w.step Action.acquire = none) ∧
    ∃ p0 log w2,
      ConnectionPool.ctor d url user password 2 s = CtorResult.constructed p0 s1 log ∧
      (World.init p0).run [Action.acquire, Action.acquire] = some w2 ∧
      w2.held = [a, b] ∧
      w2.pool.connections_ = [] ∧
      w2.pool.getConnection = GetResult.blocked ∧
      (World.init p0).run [Action.acquire, Action.acquire, Action.acquire] = none ∧
      ∀ c ∈ w2.held,
        w2.run [Action.release c, Action.acquire] =
          some { pool := w2.pool, held := c :: w2.held.erase c } := by
  have hblock : ∀ w : World, w.pool.connections_ = [] →
      w.pool.getConnection = GetResult.blocked ∧ w.step Action.acquire = none := by
    intro w hw
    have hb := getConnection_nil w.pool hw
    exact ⟨hb, by simp only [World.step, hb]⟩
  refine ⟨hblock,
    { url_ := url, user_ := user, password_ := password, poolSize := 2, connections_ := [a, b] },
    _,
    { pool := { url_ := url, user_ := user, password_ := password, poolSize := 2,
                connections_ := [] },
      held := [a, b] },
    ctor_constructed d url user password 2 s s1 [a, b] hok, ?_, rfl, rfl, ?_, ?_, ?_⟩
  · simp [World.run, World.step, World.init, ConnectionPool.getConnection, StdVector.empty,
      StdVector.back, StdVector.pop_back]
  · exact getConnection_nil _ rfl
  · simp [World.run, World.step, World.init, ConnectionPool.getConnection, StdVector.empty,
      StdVector.back, StdVector.pop_back]
  · intro c hc
    simp only [World.run, World.step, if_pos hc]
    rw [getConnection_append _ [] c rfl]
    rfl

/-- Witness of C8: the stub driver, which hands out the connections 0 and 1. -/
theorem C8_exhausted_acquire_blocks_witness :
    connectN counterDriver "tcp://127.0.0.1:4000" "root" "" 2 0 = some ([0, 1], 2) ∧
    ∃ p0 log w2,
      ConnectionPool.ctor counterDriver "tcp://127.0.0.1:4000" "root" "" 2 0 =
        CtorResult.constructed p0 2 log ∧
      (World.init p0).run [Action.acquire, Action.acquire] = some w2 ∧
      w2.held = [0, 1] ∧
      w2.pool.connections_ = [] ∧
      w2.pool.getConnection = GetResult.blocked ∧
      (World.init p0).run [Action.acquire, Action.acquire, Action.acquire] = none ∧
      ∀ c ∈ w2.held,
        w2.run [Action.release c, Action.acquire] =
          some { pool := w2.pool, held := c :: w2.held.erase c } :=
  ⟨rfl,
    (C8_exhausted_acquire_blocks counterDriver "tcp://127.0.0.1:4000" "root" "" 0 2 0 1 rfl).2⟩

/-- C9: getConnection completes exactly when the idle store is non-empty, both as
a function and as a step of the transition system; it never reaches back() or
pop_back() on an empty store, and what it returns and leaves are the results of
those two calls; starting from an empty store, after one releaseConnection one
getConnection completes, the store is empty again and a second one is blocked. -/
theorem C9_acquire_enabled_iff_store_nonempty :
    (∀ p : ConnectionPool,
        (∃ c p1, p.getConnection = GetResult.returned c p1) ↔ p.connections_ ≠ []) ∧
    (∀ w : World, (∃ w1, w.step Action.acquire = some w1) ↔ w.pool.connections_ ≠ []) ∧
    (∀ p : ConnectionPool, p.getConnection ≠ GetResult.undefinedBehaviour) ∧
    (∀ (p p1 : ConnectionPool) (c : Connection), p.getConnection = GetResult.returned c p1 →
        p.connections_ ≠ [] ∧ StdVector.back p.connections_ = some c ∧
        StdVector.pop_back p.connections_ = some p1.connections_) ∧
    (∀ (w : World) (c : Connection), w.pool.connections_ = [] → c ∈ w.held →
        ∃ w2, w.run [Action.release c, Action.acquire] = some w2 ∧
          w2.pool.connections_ = [] ∧
          w2.pool.getConnection = GetResult.blocked ∧
          w.run [Action.release c, Action.acquire, Action.acquire] = none) := by
  have hfun : ∀ p : ConnectionPool,
      (∃ c p1, p.getConnection = GetResult.returned c p1) ↔ p.connections_ ≠ [] := by
    intro p
    constructor
    · rintro ⟨c, p1, h⟩ hnil
      rw [getConnection_nil p hnil] at h
      cases h
    · intro hne
      rcases getConnection_cases p with ⟨hnil, _⟩ | ⟨xs, c, _, hr⟩
      · exact absurd hnil hne
      · exact ⟨c, _, hr⟩
  refine ⟨hfun, ?_, ?_, ?_, ?_⟩
  · intro w
    rw [← hfun]
    constructor
    · rintro ⟨w1, h⟩
      obtain ⟨c, hg, _⟩ := step_acquire w w1 h
      exact ⟨c, _, hg⟩
    · rintro ⟨c, p1, hg⟩
      exact ⟨{ pool := p1, held := c :: w.held }, by simp only [World.step, hg]⟩
  · intro p h
    rcases getConnection_cases p with ⟨_, hb⟩ | ⟨xs, c, _, hr⟩
    · rw [hb] at h; cases h
    · rw [hr] at h; cases h
  · intro p p1 c h
    obtain ⟨hc, _⟩ := getConnection_returned p p1 c h
    refine ⟨by rw [hc]; simp, ?_, ?_⟩
    · simp [StdVector.back, hc]
    · simp [StdVector.pop_back, hc]
  · intro w c hw hc
    have hrel : (w.pool.releaseConnection c).getConnection = GetResult.returned c w.pool :=
      getConnection_append _ w.pool.connections_ c rfl
    have hb := getConnection_nil w.pool hw
    refine ⟨{ pool := w.pool, held := c :: w.held.erase c }, ?_, hw, hb, ?_⟩
    · simp only [World.run, World.step, if_pos hc, hrel]
    · simp only [World.run, World.step, if_pos hc, hrel, hb]

/-- Witness of C9: the exhausted pool of size 1, whose connection 0 is released. -/
theorem C9_acquire_enabled_iff_store_nonempty_witness :
    ∃ w2, ({ pool := mainPool 1 [], held := [0] } : World).run
          [Action.release 0, Action.acquire] = some w2 ∧
      w2.pool.connections_ = [] ∧
      w2.pool.getConnection = GetResult.blocked ∧
      ({ pool := mainPool 1 [], held := [0] } : World).run
          [Action.release 0, Action.acquire, Action.acquire] = none :=
  C9_acquire_enabled_iff_store_nonempty.2.2.2.2 { pool := mainPool 1 [], held := [0] } 0 rfl
    (by decide)

/-- C10: hand-out order is LIFO. On a non-empty idle store getConnection returns
the last stored connection and removes exactly that one, the others keeping their
order; releaseConnection(c) followed by getConnection returns c and restores the
pool to what it was before the release; and on a freshly constructed pool
getConnection returns the connection created last. -/
theorem C10_hand_out_order_is_lifo {σ ε : Type} (d : Driver σ ε) :
    (∀ (p : ConnectionPool) (xs : List Connection) (c : Connection),
        p.connections_ = xs ++ [c] →
        p.getConnection = GetResult.returned c { p with connections_ := xs }) ∧
    (∀ p : ConnectionPool, p.connections_ ≠ [] →
        ∃ c p1, p.getConnection = GetResult.returned c p1 ∧
          p.connections_.getLast? = some c ∧
          p1.connections_ = p.connections_.dropLast ∧
          p.connections_ = p1.connections_ ++ [c]) ∧
    (∀ (p : ConnectionPool) (c : Connection),
        (p.releaseConnection c).getConnection = GetResult.returned c p) ∧
    (∀ (url user password : String) (poolSize : Int) (s s1 : σ) (cs : List Connection)
        (c : Connection),
        connectN d url user password poolSize.toNat s = some (cs ++ [c], s1) →
        ∃ p0 log,
          ConnectionPool.ctor d url user password poolSize s =
            CtorResult.constructed p0 s1 log ∧
          p0.getConnection = GetResult.returned c { p0 with connections_ := cs }) := by
  refine ⟨getConnection_append, ?_, ?_, ?_⟩
  · intro p hne
    rcases getConnection_cases p with ⟨hnil, _⟩ | ⟨xs, c, hx, hr⟩
    · exact absurd hnil hne
    · refine ⟨c, _, hr, ?_, ?_, hx⟩
      · simp [hx]
      · simp [hx]
  · intro p c
    exact getConnection_append _ p.connections_ c rfl
  · intro url user password poolSize s s1 cs c hok
    exact ⟨_, _, ctor_constructed d url user password poolSize s s1 _ hok,
      getConnection_append _ cs c rfl⟩

/-- Witness of C10: the pool of size 3 built over the stub driver hands out
connection 2, the one created last, and keeps 0 and 1 in order. -/
theorem C10_hand_out_order_is_lifo_witness :
    (mainPool 3 [0, 1, 2]).getConnection = GetResult.returned 2 (mainPool 3 [0, 1]) :=
  (C10_hand_out_order_is_lifo counterDriver).1 (mainPool 3 [0, 1, 2]) [0, 1] 2 rfl

end TidbPool
